import Mathlib

/-!
# Verification of the Solana price-alert programs

A shallow embedding of `src/solana_multi_alert.py` and
`src/solana_price_alert.py`.  Prices are modelled as rationals, the
DexScreener JSON response as an explicit sum/record type, and the two
driver loops as step functions producing traces indexed by cycle number.
External effects (HTTP fetch outcomes, Pushover delivery success) are
supplied as environment functions indexed by cycle.
-/

namespace PriceAlert

/-- Alert direction: `"above"` or `"below"` in the Python config. -/
inductive Direction
  | above
  | below
  deriving DecidableEq, Repr

/-- One entry of the `TOKENS` map: `{"target": ..., "direction": ...}`.
(The optional `"name"` field only affects log output and is omitted.) -/
structure TokenConfig where
  target : ℚ
  direction : Direction
  deriving DecidableEq, Repr

/-- The dictionary returned by `get_token_price`:
`{"price": ..., "name": ..., "symbol": ...}`. -/
structure Quote where
  price : ℚ
  name : String
  symbol : String
  deriving DecidableEq, Repr

/-- The `"baseToken"` object of a DexScreener pair; either field may be
absent (`dict.get` with a default in the Python). -/
structure BaseToken where
  name : Option String
  symbol : Option String
  deriving DecidableEq, Repr

/-- One trading pair of the DexScreener response.  `priceUsd = none`
models an absent `"priceUsd"` key (the Python then uses the default `0`);
a present but non-numeric `"priceUsd"` raises in `float(...)` and is
subsumed by `FetchOutcome.failure` below. -/
structure DexPair where
  priceUsd : Option ℚ
  baseToken : Option BaseToken
  deriving DecidableEq, Repr

/-- The parsed JSON body: `data.get("pairs")` may be absent or a list. -/
structure ApiData where
  pairs : Option (List DexPair)
  deriving DecidableEq, Repr

/-- Outcome of the HTTP GET in `get_token_price`: `failure` covers every
path that raises inside the `try` block (network error, timeout, non-2xx
status from `raise_for_status`, JSON decode error, `float(...)` error);
`success` carries the parsed body. -/
inductive FetchOutcome
  | failure
  | success (data : ApiData)
  deriving DecidableEq, Repr

/-- `get_token_price` (identical logic in both source files): on any
exception return `None`; if `data.get("pairs")` is truthy and non-empty
take the first pair and build a quote with `float(pair.get("priceUsd", 0))`
and the `"baseToken"` name/symbol defaulted to `"Unknown"` / `"???"`;
otherwise return `None`. -/
def get_token_price (r : FetchOutcome) : Option Quote :=
  match r with
  | .failure => none
  | .success data =>
    match data.pairs with
    | some (pair :: _) =>
      some { price := pair.priceUsd.getD 0
             name := (pair.baseToken.bind (fun b => b.name)).getD "Unknown"
             symbol := (pair.baseToken.bind (fun b => b.symbol)).getD "???" }
    | _ => none

/-- `check_price_condition` from `solana_multi_alert.py`:
`price >= target` when the direction is `"above"`, else `price <= target`. -/
def check_price_condition (price : ℚ) (config : TokenConfig) : Bool :=
  match config.direction with
  | .above => decide (config.target ≤ price)
  | .below => decide (price ≤ config.target)

/-- Result of one pass of the `for token_address, config in TOKENS.items()`
body in `main` of `solana_multi_alert.py`.  `sent` is `alerts_sent` after
the pass, `allAlerted` the `all_alerted` flag, and `invoked` the list of
addresses for which `send_pushover_alert` was called during the pass. -/
structure CycleResult where
  sent : List String
  allAlerted : Bool
  invoked : List String
  deriving DecidableEq, Repr

/-- The `for` loop body of one cycle of `main` in `solana_multi_alert.py`:
skip addresses already in `alerts_sent` (otherwise `all_alerted = False`),
fetch, and when a quote is present and `check_price_condition` holds, call
`send_pushover_alert`; on a successful send add the address to
`alerts_sent`.  `fetch` gives the HTTP outcome for each address this cycle
and `notifyOk` whether the Pushover POST succeeds for it. -/
def processTokens (fetch : String → FetchOutcome) (notifyOk : String → Bool) :
    List (String × TokenConfig) → List String → CycleResult
  | [], sent => ⟨sent, true, []⟩
  | (addr, cfg) :: rest, sent =>
    if addr ∈ sent then
      processTokens fetch notifyOk rest sent
    else
      match get_token_price (fetch addr) with
      | some q =>
        if check_price_condition q.price cfg then
          if notifyOk addr then
            let r := processTokens fetch notifyOk rest (addr :: sent)
            ⟨r.sent, false, addr :: r.invoked⟩
          else
            let r := processTokens fetch notifyOk rest sent
            ⟨r.sent, false, addr :: r.invoked⟩
        else
          let r := processTokens fetch notifyOk rest sent
          ⟨r.sent, false, r.invoked⟩
      | none =>
        let r := processTokens fetch notifyOk rest sent
        ⟨r.sent, false, r.invoked⟩

/-- `alerts_sent` at the start of cycle `n` (0-indexed): empty at process
start, then updated by each cycle.  The environments `fetch` and
`notifyOk` additionally depend on the cycle number. -/
def sentAfter (tokens : List (String × TokenConfig))
    (fetch : ℕ → String → FetchOutcome) (notifyOk : ℕ → String → Bool) :
    ℕ → List String
  | 0 => []
  | n + 1 =>
    (processTokens (fetch n) (notifyOk n) tokens
      (sentAfter tokens fetch notifyOk n)).sent

/-- The result of cycle `n` of the `while True` loop. -/
def cycleAt (tokens : List (String × TokenConfig))
    (fetch : ℕ → String → FetchOutcome) (notifyOk : ℕ → String → Bool)
    (n : ℕ) : CycleResult :=
  processTokens (fetch n) (notifyOk n) tokens (sentAfter tokens fetch notifyOk n)

/-- The `if all_alerted and len(TOKENS) > 0: break` test at the end of
cycle `n`: true exactly when the loop exits there (before the sleep). -/
def exitsAt (tokens : List (String × TokenConfig))
    (fetch : ℕ → String → FetchOutcome) (notifyOk : ℕ → String → Bool)
    (n : ℕ) : Bool :=
  (cycleAt tokens fetch notifyOk n).allAlerted && decide (0 < tokens.length)

/-- Addresses whose `send_pushover_alert` call returned `True` in cycle
`n` (the successful notifications of that cycle). -/
def successesAt (tokens : List (String × TokenConfig))
    (fetch : ℕ → String → FetchOutcome) (notifyOk : ℕ → String → Bool)
    (n : ℕ) : List String :=
  (cycleAt tokens fetch notifyOk n).invoked.filter (fun a => notifyOk n a)

/-- Number of successful notifications for address `addr` over cycles
`0, …, m-1`. -/
def totalSuccesses (tokens : List (String × TokenConfig))
    (fetch : ℕ → String → FetchOutcome) (notifyOk : ℕ → String → Bool)
    (addr : String) (m : ℕ) : ℕ :=
  ∑ n ∈ Finset.range m, (successesAt tokens fetch notifyOk n).count addr

/-! ## The single-token variant (`solana_price_alert.py`) -/

/-- State of `main` in `solana_price_alert.py`: the `alert_sent` flag and
whether the `break` has been executed (the loop has ended). -/
structure SingleState where
  alert_sent : Bool
  exited : Bool
  deriving DecidableEq, Repr

/-- One iteration of the `while True` loop of `solana_price_alert.py`
(the identity once the loop has exited): fetch; if a quote is present and
`current_price >= TARGET_PRICE and not alert_sent`, call
`send_pushover_alert`; when that returns `True`, set `alert_sent = True`
and `break`.  The second component records whether a notification was
successfully sent in this iteration. -/
def singleStep (target : ℚ) (fetchRes : FetchOutcome) (notifyOk : Bool)
    (s : SingleState) : SingleState × Bool :=
  if s.exited then (s, false)
  else
    match get_token_price fetchRes with
    | some q =>
      if target ≤ q.price ∧ s.alert_sent = false then
        if notifyOk then (⟨true, true⟩, true) else (s, false)
      else (s, false)
    | none => (s, false)

/-- The single-token loop state before iteration `n`: `alert_sent = False`
at process start. -/
def singleStateAt (target : ℚ) (fetch : ℕ → FetchOutcome)
    (notifyOk : ℕ → Bool) : ℕ → SingleState
  | 0 => ⟨false, false⟩
  | n + 1 =>
    (singleStep target (fetch n) (notifyOk n)
      (singleStateAt target fetch notifyOk n)).1

/-- Whether iteration `n` of the single-token loop successfully sends the
notification. -/
def singleNotifiedAt (target : ℚ) (fetch : ℕ → FetchOutcome)
    (notifyOk : ℕ → Bool) (n : ℕ) : Bool :=
  (singleStep target (fetch n) (notifyOk n)
    (singleStateAt target fetch notifyOk n)).2

/-- Number of notifications sent by the single-token loop during
iterations `0, …, m-1`. -/
def singleTotalNotifs (target : ℚ) (fetch : ℕ → FetchOutcome)
    (notifyOk : ℕ → Bool) (m : ℕ) : ℕ :=
  ∑ n ∈ Finset.range m,
    (if singleNotifiedAt target fetch notifyOk n = true then 1 else 0)

/-! ## Concrete scenario environments (from the spec's testable
properties) -/

/-- A well-formed DexScreener response carrying price `p`. -/
def quoteOf (p : ℚ) : FetchOutcome :=
  .success ⟨some [⟨some p, some ⟨some "Token", some "TKN"⟩⟩]⟩

/-- Two watches: A (target 0.05, above) and B (target 0.01, below). -/
def twoTokenWatch : List (String × TokenConfig) :=
  [("A", ⟨mkRat 5 100, .above⟩), ("B", ⟨mkRat 1 100, .below⟩)]

/-- Prices per cycle: A qualifies from cycle index 1 (spec's cycle 2), B
from cycle index 2 (spec's cycle 3). -/
def twoTokenFetch : ℕ → String → FetchOutcome := fun n a =>
  if a = "A" then
    match n with
    | 0 => quoteOf (mkRat 4 100)
    | _ => quoteOf (mkRat 6 100)
  else
    match n with
    | 0 => quoteOf (mkRat 2 100)
    | 1 => quoteOf (mkRat 2 100)
    | _ => quoteOf (mkRat 5 1000)

/-- Every Pushover POST succeeds. -/
def alwaysNotify : ℕ → String → Bool := fun _ _ => true

/-- One watch whose condition holds every cycle (price 0.04 ≥ 0.03). -/
def retryWatch : List (String × TokenConfig) :=
  [("T", ⟨mkRat 3 100, .above⟩)]

/-- The fetch always returns a qualifying quote. -/
def retryFetch : ℕ → String → FetchOutcome := fun _ _ => quoteOf (mkRat 4 100)

/-- The notify call fails in cycle 0 and succeeds from cycle 1 on. -/
def retryNotify : ℕ → String → Bool := fun n _ => decide (0 < n)

/-- Single-token scenario target: 0.03. -/
def singleTarget : ℚ := mkRat 3 100

/-- Sequential fetched prices 0.02, 0.025, 0.031 for the single-token
scenario. -/
def singleFetchSeq : ℕ → FetchOutcome
  | 0 => quoteOf (mkRat 1 50)
  | 1 => quoteOf (mkRat 1 40)
  | 2 => quoteOf (mkRat 31 1000)
  | _ => .failure

/-- Every Pushover POST succeeds (single-token variant). -/
def alwaysNotifySingle : ℕ → Bool := fun _ => true

/-- Every fetch raises (network down). -/
def failFetch : ℕ → String → FetchOutcome := fun _ _ => .failure

end PriceAlert

namespace PriceAlert

/-- Claim C1: the condition evaluator returns true iff (ABOVE and price ≥ target)
or (BELOW and price ≤ target); equivalently it is true on `p ≥ target`
and false on `p < target` for ABOVE, and symmetrically for BELOW. -/
theorem check_price_condition_iff (p : ℚ) (cfg : TokenConfig) :
    (check_price_condition p cfg = true ↔
      (cfg.direction = .above ∧ cfg.target ≤ p) ∨
        (cfg.direction = .below ∧ p ≤ cfg.target)) ∧
    (check_price_condition p cfg = false ↔
      (cfg.direction = .above ∧ p < cfg.target) ∨
        (cfg.direction = .below ∧ cfg.target < p)) := by
  obtain ⟨t, d⟩ := cfg
  cases d <;> constructor <;> simp [check_price_condition, not_le]

example : check_price_condition (mkRat 31 1000) ⟨mkRat 3 100, .above⟩ = true := by
  decide

example : check_price_condition (mkRat 1 50) ⟨mkRat 3 100, .above⟩ = false := by
  decide

example : get_token_price (.success ⟨some [⟨none, none⟩]⟩) =
    some ⟨0, "Unknown", "???"⟩ := by decide

/-! ## Equation lemmas for `processTokens` -/

theorem processTokens_nil (f : String → FetchOutcome) (g : String → Bool)
    (sent : List String) : processTokens f g [] sent = ⟨sent, true, []⟩ := rfl

theorem processTokens_cons_skip (f : String → FetchOutcome) (g : String → Bool)
    (addr : String) (cfg : TokenConfig) (rest : List (String × TokenConfig))
    (sent : List String) (h : addr ∈ sent) :
    processTokens f g ((addr, cfg) :: rest) sent =
      processTokens f g rest sent := by
  simp [processTokens, h]

theorem processTokens_cons_none (f : String → FetchOutcome) (g : String → Bool)
    (addr : String) (cfg : TokenConfig) (rest : List (String × TokenConfig))
    (sent : List String) (h : addr ∉ sent)
    (hq : get_token_price (f addr) = none) :
    processTokens f g ((addr, cfg) :: rest) sent =
      ⟨(processTokens f g rest sent).sent, false,
        (processTokens f g rest sent).invoked⟩ := by
  simp [processTokens, h, hq]

theorem processTokens_cons_nocond (f : String → FetchOutcome)
    (g : String → Bool) (addr : String) (cfg : TokenConfig)
    (rest : List (String × TokenConfig)) (sent : List String) (q : Quote)
    (h : addr ∉ sent) (hq : get_token_price (f addr) = some q)
    (hc : check_price_condition q.price cfg = false) :
    processTokens f g ((addr, cfg) :: rest) sent =
      ⟨(processTokens f g rest sent).sent, false,
        (processTokens f g rest sent).invoked⟩ := by
  simp [processTokens, h, hq, hc]

theorem processTokens_cons_notify_ok (f : String → FetchOutcome)
    (g : String → Bool) (addr : String) (cfg : TokenConfig)
    (rest : List (String × TokenConfig)) (sent : List String) (q : Quote)
    (h : addr ∉ sent) (hq : get_token_price (f addr) = some q)
    (hc : check_price_condition q.price cfg = true) (hg : g addr = true) :
    processTokens f g ((addr, cfg) :: rest) sent =
      ⟨(processTokens f g rest (addr :: sent)).sent, false,
        addr :: (processTokens f g rest (addr :: sent)).invoked⟩ := by
  simp [processTokens, h, hq, hc, hg]

theorem processTokens_cons_notify_fail (f : String → FetchOutcome)
    (g : String → Bool) (addr : String) (cfg : TokenConfig)
    (rest : List (String × TokenConfig)) (sent : List String) (q : Quote)
    (h : addr ∉ sent) (hq : get_token_price (f addr) = some q)
    (hc : check_price_condition q.price cfg = true) (hg : g addr = false) :
    processTokens f g ((addr, cfg) :: rest) sent =
      ⟨(processTokens f g rest sent).sent, false,
        addr :: (processTokens f g rest sent).invoked⟩ := by
  simp [processTokens, h, hq, hc, hg]

/-! ## Invariants of one cycle pass (`processTokens`) -/

/-- Addresses already in `alerts_sent` stay there across a cycle pass. -/
theorem processTokens_sent_mono (f : String → FetchOutcome) (g : String → Bool)
    (ts : List (String × TokenConfig)) (sent : List String) :
    sent ⊆ (processTokens f g ts sent).sent := by
  induction ts generalizing sent with
  | nil => exact fun a ha => ha
  | cons hd rest ih =>
    obtain ⟨addr, cfg⟩ := hd
    simp only [processTokens]
    split
    · exact ih sent
    · split
      · split
        · split
          · exact fun a ha => ih (addr :: sent) (List.mem_cons_of_mem _ ha)
          · exact ih sent
        · exact ih sent
      · exact ih sent

/-- `send_pushover_alert` is only called for an address that was not in
`alerts_sent` at the start of the pass. -/
theorem processTokens_invoked_not_mem (f : String → FetchOutcome)
    (g : String → Bool) (ts : List (String × TokenConfig)) (sent : List String)
    (a : String) (ha : a ∈ (processTokens f g ts sent).invoked) : a ∉ sent := by
  induction ts generalizing sent with
  | nil => simp [processTokens] at ha
  | cons hd rest ih =>
    obtain ⟨addr, cfg⟩ := hd
    simp only [processTokens] at ha
    split at ha
    · exact ih sent ha
    · rename_i haddr
      split at ha
      · split at ha
        · split at ha
          · rcases List.mem_cons.mp ha with rfl | ha
            · exact haddr
            · intro hmem
              exact ih (addr :: sent) ha (List.mem_cons_of_mem _ hmem)
          · rcases List.mem_cons.mp ha with rfl | ha
            · exact haddr
            · exact ih sent ha
        · exact ih sent ha
      · exact ih sent ha

/-- Anything in `alerts_sent` after a pass was there before, or had its
notify call succeed during the pass. -/
theorem processTokens_mem_sent (f : String → FetchOutcome) (g : String → Bool)
    (ts : List (String × TokenConfig)) (sent : List String) (a : String)
    (ha : a ∈ (processTokens f g ts sent).sent) :
    a ∈ sent ∨ (a ∈ (processTokens f g ts sent).invoked ∧ g a = true) := by
  induction ts generalizing sent with
  | nil => exact Or.inl ha
  | cons hd rest ih =>
    obtain ⟨addr, cfg⟩ := hd
    by_cases hmem : addr ∈ sent
    · rw [processTokens_cons_skip f g addr cfg rest sent hmem] at ha ⊢
      exact ih sent ha
    · cases hq : get_token_price (f addr) with
      | none =>
        rw [processTokens_cons_none f g addr cfg rest sent hmem hq] at ha ⊢
        exact ih sent ha
      | some q =>
        cases hc : check_price_condition q.price cfg with
        | false =>
          rw [processTokens_cons_nocond f g addr cfg rest sent q hmem hq hc]
            at ha ⊢
          exact ih sent ha
        | true =>
          cases hg : g addr with
          | true =>
            rw [processTokens_cons_notify_ok f g addr cfg rest sent q hmem hq
              hc hg] at ha ⊢
            dsimp only at ha ⊢
            rcases ih (addr :: sent) ha with hmem2 | ⟨hinv, hga⟩
            · rcases List.mem_cons.mp hmem2 with rfl | hmem2
              · exact Or.inr ⟨List.mem_cons_self _ _, hg⟩
              · exact Or.inl hmem2
            · exact Or.inr ⟨List.mem_cons_of_mem _ hinv, hga⟩
          | false =>
            rw [processTokens_cons_notify_fail f g addr cfg rest sent q hmem hq
              hc hg] at ha ⊢
            dsimp only at ha ⊢
            rcases ih sent ha with hmem2 | ⟨hinv, hga⟩
            · exact Or.inl hmem2
            · exact Or.inr ⟨List.mem_cons_of_mem _ hinv, hga⟩

/-- A successful notify call during the pass puts the address into
`alerts_sent`. -/
theorem processTokens_success_mem_sent (f : String → FetchOutcome)
    (g : String → Bool) (ts : List (String × TokenConfig)) (sent : List String)
    (a : String) (ha : a ∈ (processTokens f g ts sent).invoked)
    (hg : g a = true) : a ∈ (processTokens f g ts sent).sent := by
  induction ts generalizing sent with
  | nil => simp [processTokens_nil] at ha
  | cons hd rest ih =>
    obtain ⟨addr, cfg⟩ := hd
    by_cases hmem : addr ∈ sent
    · rw [processTokens_cons_skip f g addr cfg rest sent hmem] at ha ⊢
      exact ih sent ha
    · cases hq : get_token_price (f addr) with
      | none =>
        rw [processTokens_cons_none f g addr cfg rest sent hmem hq] at ha ⊢
        exact ih sent ha
      | some q =>
        cases hc : check_price_condition q.price cfg with
        | false =>
          rw [processTokens_cons_nocond f g addr cfg rest sent q hmem hq hc]
            at ha ⊢
          exact ih sent ha
        | true =>
          cases hng : g addr with
          | true =>
            rw [processTokens_cons_notify_ok f g addr cfg rest sent q hmem hq
              hc hng] at ha ⊢
            dsimp only at ha ⊢
            rcases List.mem_cons.mp ha with rfl | ha
            · exact processTokens_sent_mono f g rest (a :: sent)
                (List.mem_cons_self _ _)
            · exact ih (addr :: sent) ha
          | false =>
            rw [processTokens_cons_notify_fail f g addr cfg rest sent q hmem hq
              hc hng] at ha ⊢
            dsimp only at ha ⊢
            rcases List.mem_cons.mp ha with rfl | ha
            · exact absurd hg (by simp [hng])
            · exact ih sent ha

/-! ## Cycle-pass invariants and trace lemmas -/

/-- Within one pass, at most one notify call for a given address succeeds
(a success puts the address into `alerts_sent`, and later occurrences in
the same pass are skipped). -/
theorem processTokens_count_filter_le_one (f : String → FetchOutcome)
    (g : String → Bool) (ts : List (String × TokenConfig)) (sent : List String)
    (a : String) :
    ((processTokens f g ts sent).invoked.filter (fun x => g x)).count a ≤ 1 := by
  induction ts generalizing sent with
  | nil => simp [processTokens_nil]
  | cons hd rest ih =>
    obtain ⟨addr, cfg⟩ := hd
    by_cases hmem : addr ∈ sent
    · rw [processTokens_cons_skip f g addr cfg rest sent hmem]
      exact ih sent
    · cases hq : get_token_price (f addr) with
      | none =>
        rw [processTokens_cons_none f g addr cfg rest sent hmem hq]
        exact ih sent
      | some q =>
        cases hc : check_price_condition q.price cfg with
        | false =>
          rw [processTokens_cons_nocond f g addr cfg rest sent q hmem hq hc]
          exact ih sent
        | true =>
          cases hg : g addr with
          | true =>
            rw [processTokens_cons_notify_ok f g addr cfg rest sent q hmem hq
              hc hg]
            dsimp only
            rw [List.filter_cons_of_pos hg]
            by_cases heq : a = addr
            · subst heq
              have hnot : a ∉ (processTokens f g rest (a :: sent)).invoked :=
                fun hmem2 => processTokens_invoked_not_mem f g rest
                  (a :: sent) a hmem2 (List.mem_cons_self _ _)
              have hnotf :
                  a ∉ (processTokens f g rest (a :: sent)).invoked.filter
                    (fun x => g x) :=
                fun hmem2 => hnot (List.mem_of_mem_filter hmem2)
              rw [List.count_cons_self, List.count_eq_zero.mpr hnotf]
            · rw [List.count_cons_of_ne heq]
              exact ih (addr :: sent)
          | false =>
            rw [processTokens_cons_notify_fail f g addr cfg rest sent q hmem hq
              hc hg]
            dsimp only
            rw [List.filter_cons_of_neg (by simp [hg])]
            exact ih sent

/-- If some configured token is still pending (not in `alerts_sent`), the
pass leaves `all_alerted = False`. -/
theorem processTokens_allAlerted_false (f : String → FetchOutcome)
    (g : String → Bool) (ts : List (String × TokenConfig)) (sent : List String)
    (addr : String) (cfg : TokenConfig) (hmem : (addr, cfg) ∈ ts)
    (hpend : addr ∉ sent) :
    (processTokens f g ts sent).allAlerted = false := by
  induction ts generalizing sent with
  | nil => simp at hmem
  | cons hd rest ih =>
    obtain ⟨a0, c0⟩ := hd
    by_cases h0 : a0 ∈ sent
    · rw [processTokens_cons_skip f g a0 c0 rest sent h0]
      rcases List.mem_cons.mp hmem with heq | hmem2
      · injection heq with h1 h2
        subst h1
        exact absurd h0 hpend
      · exact ih sent hmem2 hpend
    · cases hq : get_token_price (f a0) with
      | none => rw [processTokens_cons_none f g a0 c0 rest sent h0 hq]
      | some q =>
        cases hc : check_price_condition q.price c0 with
        | false => rw [processTokens_cons_nocond f g a0 c0 rest sent q h0 hq hc]
        | true =>
          cases hg : g a0 with
          | true =>
            rw [processTokens_cons_notify_ok f g a0 c0 rest sent q h0 hq hc hg]
          | false =>
            rw [processTokens_cons_notify_fail f g a0 c0 rest sent q h0 hq
              hc hg]

/-- A notify call during a pass presupposes a successful fetch whose quote
satisfies the price condition of that address's configuration. -/
theorem processTokens_invoked_cond (f : String → FetchOutcome)
    (g : String → Bool) (ts : List (String × TokenConfig)) (sent : List String)
    (a : String) (ha : a ∈ (processTokens f g ts sent).invoked) :
    ∃ cfg, (a, cfg) ∈ ts ∧ ∃ q, get_token_price (f a) = some q ∧
      check_price_condition q.price cfg = true := by
  induction ts generalizing sent with
  | nil => simp [processTokens_nil] at ha
  | cons hd rest ih =>
    obtain ⟨addr, cfg⟩ := hd
    by_cases hmem : addr ∈ sent
    · rw [processTokens_cons_skip f g addr cfg rest sent hmem] at ha
      obtain ⟨c, hc1, hc2⟩ := ih sent ha
      exact ⟨c, List.mem_cons_of_mem _ hc1, hc2⟩
    · cases hq : get_token_price (f addr) with
      | none =>
        rw [processTokens_cons_none f g addr cfg rest sent hmem hq] at ha
        obtain ⟨c, hc1, hc2⟩ := ih sent ha
        exact ⟨c, List.mem_cons_of_mem _ hc1, hc2⟩
      | some q =>
        cases hc : check_price_condition q.price cfg with
        | false =>
          rw [processTokens_cons_nocond f g addr cfg rest sent q hmem hq hc]
            at ha
          obtain ⟨c, hc1, hc2⟩ := ih sent ha
          exact ⟨c, List.mem_cons_of_mem _ hc1, hc2⟩
        | true =>
          cases hg : g addr with
          | true =>
            rw [processTokens_cons_notify_ok f g addr cfg rest sent q hmem hq
              hc hg] at ha
            dsimp only at ha
            rcases List.mem_cons.mp ha with rfl | ha
            · exact ⟨cfg, List.mem_cons_self _ _, q, hq, hc⟩
            · obtain ⟨c, hc1, hc2⟩ := ih (addr :: sent) ha
              exact ⟨c, List.mem_cons_of_mem _ hc1, hc2⟩
          | false =>
            rw [processTokens_cons_notify_fail f g addr cfg rest sent q hmem hq
              hc hg] at ha
            dsimp only at ha
            rcases List.mem_cons.mp ha with rfl | ha
            · exact ⟨cfg, List.mem_cons_self _ _, q, hq, hc⟩
            · obtain ⟨c, hc1, hc2⟩ := ih sent ha
              exact ⟨c, List.mem_cons_of_mem _ hc1, hc2⟩

/-! ## Trace-level lemmas for the multi-token loop -/

/-- `alerts_sent` only grows from one cycle to the next. -/
theorem sentAfter_mono (tokens : List (String × TokenConfig))
    (fetch : ℕ → String → FetchOutcome) (notifyOk : ℕ → String → Bool)
    {n m : ℕ} (h : n ≤ m) :
    sentAfter tokens fetch notifyOk n ⊆ sentAfter tokens fetch notifyOk m := by
  induction h with
  | refl => exact fun a ha => ha
  | step h ih =>
    exact fun a ha =>
      processTokens_sent_mono _ _ tokens _ (ih ha)

/-- A successful notification in cycle `n` puts the address into
`alerts_sent` for cycle `n + 1`. -/
theorem mem_successesAt_mem_sentAfter (tokens : List (String × TokenConfig))
    (fetch : ℕ → String → FetchOutcome) (notifyOk : ℕ → String → Bool)
    (a : String) (n : ℕ) (ha : a ∈ successesAt tokens fetch notifyOk n) :
    a ∈ sentAfter tokens fetch notifyOk (n + 1) := by
  have h := List.mem_filter.mp ha
  exact processTokens_success_mem_sent _ _ _ _ _ h.1 h.2

/-- An address already in `alerts_sent` records no successful
notification in that cycle. -/
theorem count_successesAt_eq_zero (tokens : List (String × TokenConfig))
    (fetch : ℕ → String → FetchOutcome) (notifyOk : ℕ → String → Bool)
    (a : String) (n : ℕ) (ha : a ∈ sentAfter tokens fetch notifyOk n) :
    (successesAt tokens fetch notifyOk n).count a = 0 :=
  List.count_eq_zero.mpr fun hmem =>
    processTokens_invoked_not_mem _ _ _ _ _ (List.mem_of_mem_filter hmem) ha

/-- At most one successful notification per address per cycle. -/
theorem count_successesAt_le_one (tokens : List (String × TokenConfig))
    (fetch : ℕ → String → FetchOutcome) (notifyOk : ℕ → String → Bool)
    (a : String) (n : ℕ) :
    (successesAt tokens fetch notifyOk n).count a ≤ 1 :=
  processTokens_count_filter_le_one _ _ _ _ _

/-- At most one successful notification per address over any whole run
prefix. -/
theorem totalSuccesses_le_one (tokens : List (String × TokenConfig))
    (fetch : ℕ → String → FetchOutcome) (notifyOk : ℕ → String → Bool)
    (a : String) (m : ℕ) :
    totalSuccesses tokens fetch notifyOk a m ≤ 1 := by
  induction m with
  | zero => simp [totalSuccesses]
  | succ m ih =>
    rw [totalSuccesses, Finset.sum_range_succ]
    by_cases hlast : (successesAt tokens fetch notifyOk m).count a = 0
    · rw [hlast]
      simpa [totalSuccesses] using ih
    · have hzero : ∀ k ∈ Finset.range m,
          (successesAt tokens fetch notifyOk k).count a = 0 := by
        intro k hk
        by_contra hcon
        have hmemk : a ∈ successesAt tokens fetch notifyOk k :=
          List.count_pos_iff.mp (Nat.pos_of_ne_zero hcon)
        have hsent : a ∈ sentAfter tokens fetch notifyOk m :=
          sentAfter_mono tokens fetch notifyOk
            (Nat.succ_le_of_lt (Finset.mem_range.mp hk))
            (mem_successesAt_mem_sentAfter tokens fetch notifyOk a k hmemk)
        exact hlast (count_successesAt_eq_zero tokens fetch notifyOk a m hsent)
      rw [Finset.sum_eq_zero hzero, Nat.zero_add]
      exact count_successesAt_le_one tokens fetch notifyOk a m

/-! ## Single-token loop lemmas -/

/-- Once the single-token loop has exited, an iteration changes nothing
and sends nothing. -/
theorem singleStep_exited (target : ℚ) (fr : FetchOutcome) (g : Bool)
    (s : SingleState) (h : s.exited = true) :
    singleStep target fr g s = (s, false) := by
  simp [singleStep, h]

/-- When the loop is running, the quote qualifies, no alert has been sent
and the notify call succeeds, the iteration sends the notification, sets
`alert_sent` and exits. -/
theorem singleStep_fire (target : ℚ) (fr : FetchOutcome) (g : Bool)
    (s : SingleState) (q : Quote) (hex : s.exited = false)
    (hq : get_token_price fr = some q) (hp : target ≤ q.price)
    (hs : s.alert_sent = false) (hg : g = true) :
    singleStep target fr g s = (⟨true, true⟩, true) := by
  simp [singleStep, hex, hq, hp, hs, hg]

/-- The exited state is absorbing. -/
theorem singleStateAt_of_exited (target : ℚ) (f : ℕ → FetchOutcome)
    (g : ℕ → Bool) {n m : ℕ} (hnm : n ≤ m)
    (h : (singleStateAt target f g n).exited = true) :
    singleStateAt target f g m = singleStateAt target f g n := by
  induction hnm with
  | refl => rfl
  | step h' ih =>
    rename_i m'
    show (singleStep target (f m') (g m') (singleStateAt target f g m')).1 =
      singleStateAt target f g n
    rw [ih, singleStep_exited target (f m') (g m') _ h]

/-- After the loop has exited, no iteration sends a notification. -/
theorem singleNotifiedAt_of_exited (target : ℚ) (f : ℕ → FetchOutcome)
    (g : ℕ → Bool) {n m : ℕ} (hnm : n ≤ m)
    (h : (singleStateAt target f g n).exited = true) :
    singleNotifiedAt target f g m = false := by
  unfold singleNotifiedAt
  rw [singleStateAt_of_exited target f g hnm h,
    singleStep_exited target (f m) (g m) _ h]

/-- Once the single-token loop has exited, its notification count no
longer grows. -/
theorem singleTotalNotifs_stable (target : ℚ) (f : ℕ → FetchOutcome)
    (g : ℕ → Bool) {n : ℕ} (h : (singleStateAt target f g n).exited = true)
    (m : ℕ) :
    singleTotalNotifs target f g (n + m) = singleTotalNotifs target f g n := by
  induction m with
  | zero => rfl
  | succ m ih =>
    rw [Nat.add_succ, singleTotalNotifs, Finset.sum_range_succ,
      ← singleTotalNotifs, ih,
      singleNotifiedAt_of_exited target f g (Nat.le_add_right n m) h]
    simp

/-- Once an address is in `alerts_sent`, its notification count no longer
grows. -/
theorem totalSuccesses_stable (tokens : List (String × TokenConfig))
    (fetch : ℕ → String → FetchOutcome) (notifyOk : ℕ → String → Bool)
    (a : String) {n : ℕ} (h : a ∈ sentAfter tokens fetch notifyOk n)
    (m : ℕ) :
    totalSuccesses tokens fetch notifyOk a (n + m) =
      totalSuccesses tokens fetch notifyOk a n := by
  induction m with
  | zero => rfl
  | succ m ih =>
    rw [Nat.add_succ, totalSuccesses, Finset.sum_range_succ, ← totalSuccesses,
      ih, count_successesAt_eq_zero tokens fetch notifyOk a (n + m)
        (sentAfter_mono tokens fetch notifyOk (Nat.le_add_right n m) h)]
    rfl

/-! ## Claims C2 and C3 -/

/-- Claim C2: for every token and every execution of the driver loop, the
`alerts_sent` ledger only grows (an entry, once set, never reverts), the
notifier is never invoked for a token already in the ledger, and at most
one successful notification is recorded per token per run. -/
theorem ledger_at_most_once (tokens : List (String × TokenConfig))
    (fetch : ℕ → String → FetchOutcome) (notifyOk : ℕ → String → Bool)
    (addr : String) (k n m : ℕ) (hnm : n ≤ m)
    (hinv : addr ∈ (cycleAt tokens fetch notifyOk k).invoked) :
    sentAfter tokens fetch notifyOk n ⊆ sentAfter tokens fetch notifyOk m ∧
    addr ∉ sentAfter tokens fetch notifyOk k ∧
    ∀ a : String, totalSuccesses tokens fetch notifyOk a m ≤ 1 :=
  ⟨sentAfter_mono tokens fetch notifyOk hnm,
   processTokens_invoked_not_mem _ _ _ _ _ hinv,
   fun a => totalSuccesses_le_one tokens fetch notifyOk a m⟩

/-- Witness for C2, at the retry scenario with notify attempted in
cycle 0. -/
theorem ledger_at_most_once_witness :
    sentAfter retryWatch retryFetch retryNotify 1 ⊆
      sentAfter retryWatch retryFetch retryNotify 2 ∧
    "T" ∉ sentAfter retryWatch retryFetch retryNotify 0 ∧
    totalSuccesses retryWatch retryFetch retryNotify "T" 2 ≤ 1 := by
  have h := ledger_at_most_once retryWatch retryFetch retryNotify "T" 0 1 2
    (by decide) (by decide)
  exact ⟨h.1, h.2.1, h.2.2 "T"⟩

/-- Claim C3: when the fetch for a pending token returns no data, that
token is not evaluated or notified this cycle, its ledger entry is
unchanged, and the loop does not exit at this cycle (the fetcher itself is
total — it returns `none` instead of propagating the error). -/
theorem fetch_none_no_action (tokens : List (String × TokenConfig))
    (fetch : ℕ → String → FetchOutcome) (notifyOk : ℕ → String → Bool)
    (addr : String) (cfg : TokenConfig) (n : ℕ)
    (hmem : (addr, cfg) ∈ tokens)
    (hpend : addr ∉ sentAfter tokens fetch notifyOk n)
    (hnone : get_token_price (fetch n addr) = none) :
    addr ∉ (cycleAt tokens fetch notifyOk n).invoked ∧
    (addr ∈ sentAfter tokens fetch notifyOk (n + 1) ↔
      addr ∈ sentAfter tokens fetch notifyOk n) ∧
    exitsAt tokens fetch notifyOk n = false := by
  refine ⟨?_, ⟨?_, fun h => processTokens_sent_mono _ _ _ _ h⟩, ?_⟩
  · intro hinv
    obtain ⟨c, _, q, hq, _⟩ := processTokens_invoked_cond _ _ _ _ _ hinv
    rw [hnone] at hq
    exact Option.noConfusion hq
  · intro hmem1
    rcases processTokens_mem_sent _ _ _ _ _ hmem1 with h | ⟨hinv, _⟩
    · exact h
    · obtain ⟨c, _, q, hq, _⟩ := processTokens_invoked_cond _ _ _ _ _ hinv
      rw [hnone] at hq
      exact Option.noConfusion hq
  · unfold exitsAt
    rw [show (cycleAt tokens fetch notifyOk n).allAlerted = false from
      processTokens_allAlerted_false _ _ _ _ addr cfg hmem hpend]
    rfl

/-- Witness for C3: one pending watch, network down in cycle 0. -/
theorem fetch_none_no_action_witness :
    "T" ∉ (cycleAt retryWatch failFetch alwaysNotify 0).invoked ∧
    ("T" ∈ sentAfter retryWatch failFetch alwaysNotify 1 ↔
      "T" ∈ sentAfter retryWatch failFetch alwaysNotify 0) ∧
    exitsAt retryWatch failFetch alwaysNotify 0 = false :=
  fetch_none_no_action retryWatch failFetch alwaysNotify "T"
    ⟨mkRat 3 100, .above⟩ 0 (by decide) (by decide) (by decide)

/-! ## Claims C4 and C10 (fetcher behaviour on malformed responses) -/

/-- Counterexample to claim C4: a response whose pairs list is non-empty
but whose first pair lacks the `priceUsd` field yields a `Quote` with
price `0`, not "no data". -/
theorem missing_price_returns_quote :
    get_token_price (.success ⟨some [⟨none, none⟩]⟩) =
      some ⟨0, "Unknown", "???"⟩ ∧
    get_token_price (.success ⟨some [⟨none, none⟩]⟩) ≠ none := by
  decide

/-- Claim C4 as amended: the fetcher returns "no data" exactly when the
call fails or the pairs list is missing or empty; when the pairs list is
non-empty a `Quote` is always produced, with price `0` substituted when
the first pair lacks the price field, and placeholder name/symbol for
missing base-token fields. -/
theorem get_token_price_none_iff (r : FetchOutcome) :
    (get_token_price r = none ↔
      r = .failure ∨ r = .success ⟨none⟩ ∨ r = .success ⟨some []⟩) ∧
    (∀ (bt : Option BaseToken) (rest : List DexPair),
      get_token_price (.success ⟨some (⟨none, bt⟩ :: rest)⟩) =
        some ⟨0, (bt.bind (fun b => b.name)).getD "Unknown",
          (bt.bind (fun b => b.symbol)).getD "???"⟩) := by
  constructor
  · rcases r with _ | ⟨ps⟩
    · simp [get_token_price]
    · rcases ps with _ | l
      · simp [get_token_price]
      · rcases l with _ | ⟨p, l⟩ <;> simp [get_token_price]
  · intro bt rest
    rfl

/-- Claim C10: a non-empty pairs list whose first pair lacks the price
field produces a `Quote` with price `0` and placeholder name/symbol; for a
watch with direction BELOW and positive target this satisfies the alert
condition, and the driver invokes the notifier for it. -/
theorem missing_price_triggers_below (rest : List DexPair) (t : ℚ)
    (g : ℕ → String → Bool) (ht : 0 < t) :
    get_token_price (.success ⟨some (⟨none, none⟩ :: rest)⟩) =
      some ⟨0, "Unknown", "???"⟩ ∧
    check_price_condition 0 ⟨t, .below⟩ = true ∧
    "T" ∈ (cycleAt [("T", ⟨t, .below⟩)]
      (fun _ _ => .success ⟨some (⟨none, none⟩ :: rest)⟩) g 0).invoked := by
  have hq : get_token_price
      ((fun _ => FetchOutcome.success ⟨some (⟨none, none⟩ :: rest)⟩) "T") =
      some ⟨0, "Unknown", "???"⟩ := rfl
  have hc : check_price_condition (0 : ℚ) ⟨t, .below⟩ = true := by
    simp only [check_price_condition, decide_eq_true_eq]
    exact le_of_lt ht
  refine ⟨rfl, hc, ?_⟩
  show "T" ∈ (processTokens
    (fun _ => FetchOutcome.success ⟨some (⟨none, none⟩ :: rest)⟩) (g 0)
    [("T", ⟨t, .below⟩)] []).invoked
  cases hg : g 0 "T" with
  | true =>
    rw [processTokens_cons_notify_ok
      (fun _ => FetchOutcome.success ⟨some (⟨none, none⟩ :: rest)⟩) (g 0)
      "T" ⟨t, .below⟩ [] [] ⟨0, "Unknown", "???"⟩
      (List.not_mem_nil _) hq hc hg]
    exact List.mem_cons_self _ _
  | false =>
    rw [processTokens_cons_notify_fail
      (fun _ => FetchOutcome.success ⟨some (⟨none, none⟩ :: rest)⟩) (g 0)
      "T" ⟨t, .below⟩ [] [] ⟨0, "Unknown", "???"⟩
      (List.not_mem_nil _) hq hc hg]
    exact List.mem_cons_self _ _

/-- Witness for C10 at target 0.01. -/
theorem missing_price_triggers_below_witness :
    get_token_price (.success ⟨some [⟨none, none⟩]⟩) =
      some ⟨0, "Unknown", "???"⟩ ∧
    check_price_condition 0 ⟨mkRat 1 100, .below⟩ = true ∧
    "T" ∈ (cycleAt [("T", ⟨mkRat 1 100, .below⟩)]
      (fun _ _ => .success ⟨some [⟨none, none⟩]⟩) alwaysNotify 0).invoked :=
  missing_price_triggers_below [] (mkRat 1 100) alwaysNotify (by decide)

/-! ## Claim C5 (notify failure leaves the ledger unchanged; retry) -/

/-- Claim C5: when a notify call fails, the token's ledger entry is not
marked (state unchanged on error); a retry happens only when the condition
holds again; and in the fail-once-then-succeed scenario the ledger is
marked only after the success with exactly one notification ultimately
recorded. -/
theorem notify_fail_not_marked (tokens : List (String × TokenConfig))
    (fetch : ℕ → String → FetchOutcome) (notifyOk : ℕ → String → Bool)
    (addr addr2 : String) (n k : ℕ)
    (hfail : notifyOk n addr = false)
    (hinv : addr2 ∈ (cycleAt tokens fetch notifyOk k).invoked) :
    (addr ∈ sentAfter tokens fetch notifyOk (n + 1) ↔
      addr ∈ sentAfter tokens fetch notifyOk n) ∧
    (∃ cfg, (addr2, cfg) ∈ tokens ∧ ∃ q,
      get_token_price (fetch k addr2) = some q ∧
      check_price_condition q.price cfg = true) ∧
    "T" ∈ (cycleAt retryWatch retryFetch retryNotify 0).invoked ∧
    retryNotify 0 "T" = false ∧
    "T" ∉ sentAfter retryWatch retryFetch retryNotify 1 ∧
    retryNotify 1 "T" = true ∧
    "T" ∈ sentAfter retryWatch retryFetch retryNotify 2 ∧
    ∀ m, totalSuccesses retryWatch retryFetch retryNotify "T" (2 + m) = 1 := by
  refine ⟨⟨?_, fun h => processTokens_sent_mono _ _ _ _ h⟩,
    processTokens_invoked_cond _ _ _ _ _ hinv,
    by decide, by decide, by decide, by decide, by decide, ?_⟩
  · intro h1
    rcases processTokens_mem_sent _ _ _ _ _ h1 with h | ⟨_, hok⟩
    · exact h
    · rw [hfail] at hok
      exact Bool.noConfusion hok
  · intro m
    rw [totalSuccesses_stable retryWatch retryFetch retryNotify "T"
      (show "T" ∈ sentAfter retryWatch retryFetch retryNotify 2 from by decide)
      m]
    decide

/-- Witness for C5 at the retry scenario (notify fails in cycle 0 for the
invoked token). -/
theorem notify_fail_not_marked_witness :
    ("T" ∈ sentAfter retryWatch retryFetch retryNotify 1 ↔
      "T" ∈ sentAfter retryWatch retryFetch retryNotify 0) ∧
    (∃ cfg, ("T", cfg) ∈ retryWatch ∧ ∃ q,
      get_token_price (retryFetch 0 "T") = some q ∧
      check_price_condition q.price cfg = true) ∧
    "T" ∈ (cycleAt retryWatch retryFetch retryNotify 0).invoked ∧
    retryNotify 0 "T" = false ∧
    "T" ∉ sentAfter retryWatch retryFetch retryNotify 1 ∧
    retryNotify 1 "T" = true ∧
    "T" ∈ sentAfter retryWatch retryFetch retryNotify 2 ∧
    totalSuccesses retryWatch retryFetch retryNotify "T" (2 + 4) = 1 := by
  have h := notify_fail_not_marked retryWatch retryFetch retryNotify "T" "T"
    0 0 (by decide) (by decide)
  exact ⟨h.1, h.2.1, h.2.2.1, h.2.2.2.1, h.2.2.2.2.1, h.2.2.2.2.2.1,
    h.2.2.2.2.2.2.1, h.2.2.2.2.2.2.2 4⟩

/-! ## Claim C6 (two-token scenario) -/

/-- Counterexample to claim C6: in the two-token scenario both
notifications have been sent by the end of cycle 3 (index 2), yet the exit
test at the end of that cycle is false — the loop does not terminate after
cycle 3. -/
theorem two_token_no_exit_at_cycle3 :
    totalSuccesses twoTokenWatch twoTokenFetch alwaysNotify "A" 3 = 1 ∧
    totalSuccesses twoTokenWatch twoTokenFetch alwaysNotify "B" 3 = 1 ∧
    exitsAt twoTokenWatch twoTokenFetch alwaysNotify 2 = false := by
  decide

/-- Claim C6 as amended: A's notification is sent in cycle 2 (index 1) and
B's in cycle 3 (index 2), exactly one each; the loop does not exit at the
end of cycles 1–3 (because `all_alerted` is cleared before a pending token
is processed, even when its alert succeeds that same cycle), and exits at
the end of cycle 4 (index 3), which processes no tokens. -/
theorem two_token_scenario_exits_cycle4 :
    successesAt twoTokenWatch twoTokenFetch alwaysNotify 0 = [] ∧
    successesAt twoTokenWatch twoTokenFetch alwaysNotify 1 = ["A"] ∧
    successesAt twoTokenWatch twoTokenFetch alwaysNotify 2 = ["B"] ∧
    successesAt twoTokenWatch twoTokenFetch alwaysNotify 3 = [] ∧
    totalSuccesses twoTokenWatch twoTokenFetch alwaysNotify "A" 4 = 1 ∧
    totalSuccesses twoTokenWatch twoTokenFetch alwaysNotify "B" 4 = 1 ∧
    exitsAt twoTokenWatch twoTokenFetch alwaysNotify 0 = false ∧
    exitsAt twoTokenWatch twoTokenFetch alwaysNotify 1 = false ∧
    exitsAt twoTokenWatch twoTokenFetch alwaysNotify 2 = false ∧
    exitsAt twoTokenWatch twoTokenFetch alwaysNotify 3 = true := by
  decide

/-! ## Claims C7 and C8 (single-token variant) -/

/-- Claim C7: with target 0.03 and fetched prices 0.02, 0.025, 0.031, the
single-token loop sends no notification on the first two prices, sends one
on the third, and the total number of notifications stays 1 forever. -/
theorem single_scenario_third_price :
    singleNotifiedAt singleTarget singleFetchSeq alwaysNotifySingle 0 =
      false ∧
    singleNotifiedAt singleTarget singleFetchSeq alwaysNotifySingle 1 =
      false ∧
    singleNotifiedAt singleTarget singleFetchSeq alwaysNotifySingle 2 =
      true ∧
    ∀ m, singleTotalNotifs singleTarget singleFetchSeq alwaysNotifySingle
      (3 + m) = 1 := by
  refine ⟨by decide, by decide, by decide, ?_⟩
  intro m
  rw [singleTotalNotifs_stable singleTarget singleFetchSeq alwaysNotifySingle
    (show (singleStateAt singleTarget singleFetchSeq
      alwaysNotifySingle 3).exited = true from by decide) m]
  decide

/-- Claim C8: the first iteration of the single-token loop in which the
condition holds and the notify call succeeds sends the notification and is
the last iteration executed: every later point has the loop exited, with
the state frozen and no further notification. -/
theorem single_exits_after_success (target : ℚ) (f : ℕ → FetchOutcome)
    (g : ℕ → Bool) (n : ℕ) (q : Quote)
    (hex : (singleStateAt target f g n).exited = false)
    (hq : get_token_price (f n) = some q)
    (hp : target ≤ q.price)
    (hs : (singleStateAt target f g n).alert_sent = false)
    (hg : g n = true) :
    singleNotifiedAt target f g n = true ∧
    ∀ m, n + 1 ≤ m → singleStateAt target f g m = ⟨true, true⟩ ∧
      singleNotifiedAt target f g m = false := by
  have hstep := singleStep_fire target (f n) (g n)
    (singleStateAt target f g n) q hex hq hp hs hg
  have h1 : singleStateAt target f g (n + 1) = ⟨true, true⟩ := by
    show (singleStep target (f n) (g n) (singleStateAt target f g n)).1 =
      (⟨true, true⟩ : SingleState)
    rw [hstep]
  have hex1 : (singleStateAt target f g (n + 1)).exited = true := by
    rw [h1]
  refine ⟨?_, fun m hm => ⟨?_, singleNotifiedAt_of_exited target f g hm hex1⟩⟩
  · unfold singleNotifiedAt
    rw [hstep]
  · rw [singleStateAt_of_exited target f g hm hex1, h1]

/-- Witness for C8: the single-token scenario fires at iteration 2. -/
theorem single_exits_after_success_witness :
    singleNotifiedAt singleTarget singleFetchSeq alwaysNotifySingle 2 =
      true ∧
    singleStateAt singleTarget singleFetchSeq alwaysNotifySingle 5 =
      ⟨true, true⟩ ∧
    singleNotifiedAt singleTarget singleFetchSeq alwaysNotifySingle 5 =
      false := by
  have h := single_exits_after_success singleTarget singleFetchSeq
    alwaysNotifySingle 2 ⟨mkRat 31 1000, "Token", "TKN"⟩ (by decide)
    (by decide) (by decide) (by decide) (by decide)
  exact ⟨h.1, (h.2 5 (by decide)).1, (h.2 5 (by decide)).2⟩

/-! ## Claim C9 (empty token map) -/

/-- Claim C9: with an empty `TOKENS` map the `for` loop body never runs, so
`all_alerted` stays vacuously `True`, yet the exit test also requires
`len(TOKENS) > 0` and is therefore false in every cycle: the loop never
terminates. -/
theorem empty_watchlist_never_exits (fetch : ℕ → String → FetchOutcome)
    (notifyOk : ℕ → String → Bool) (n : ℕ) :
    (cycleAt [] fetch notifyOk n).allAlerted = true ∧
    exitsAt [] fetch notifyOk n = false :=
  ⟨rfl, rfl⟩

end PriceAlert
